import Mathlib

set_option maxRecDepth 4000

namespace PangPang

/-- Text is modelled as a list of characters, mirroring Python strings. -/
abbrev Str := List Char

/-- Boolean test that the first list is an initial segment of the second. -/
def leadsWith : Str → Str → Bool
  | [], _ => true
  | _ :: _, [] => false
  | p :: ps, c :: cs => decide (p = c) && leadsWith ps cs

/-- Boolean substring test, mirroring the Python `in` operator on strings. -/
def containsSub (pat : Str) : Str → Bool
  | [] => pat.isEmpty
  | c :: rest => leadsWith pat (c :: rest) || containsSub pat rest

/-- Python `str.replace` with an empty pattern inserts the replacement
before and after every character. -/
def emptyPatReplace (rep : Str) (t : Str) : Str :=
  rep ++ t.foldr (fun c acc => c :: (rep ++ acc)) []

/-- Fuelled worker for `replaceAll`; the fuel is the length of the text,
which bounds the number of scanning steps. -/
def replaceAllAux (pat rep : Str) : Nat → Str → Str
  | _, [] => []
  | 0, t => t
  | fuel + 1, c :: rest =>
    if leadsWith pat (c :: rest) then
      rep ++ replaceAllAux pat rep fuel (rest.drop (pat.length - 1))
    else
      c :: replaceAllAux pat rep fuel rest

/-- Python `text.replace(pat, rep)`: left-to-right, non-overlapping
replacement of every occurrence of `pat` by `rep`. -/
def replaceAll (pat rep t : Str) : Str :=
  match pat with
  | [] => emptyPatReplace rep t
  | _ :: _ => replaceAllAux pat rep t.length t

theorem containsSub_nil_left (t : Str) : containsSub [] t = true := by
  cases t <;> simp [containsSub, leadsWith, List.isEmpty]

theorem replaceAllAux_of_not_contains (pat rep : Str) :
    ∀ (t : Str) (fuel : Nat), containsSub pat t = false →
      replaceAllAux pat rep fuel t = t := by
  intro t
  induction t with
  | nil => intro fuel _; cases fuel <;> rfl
  | cons c rest ih =>
    intro fuel h
    simp only [containsSub, Bool.or_eq_false_iff] at h
    cases fuel with
    | zero => rfl
    | succ n =>
      simp [replaceAllAux, h.1, ih n h.2]

/-- Replacing a pattern that does not occur in the text leaves it unchanged. -/
theorem replaceAll_of_not_contains (pat rep t : Str)
    (h : containsSub pat t = false) : replaceAll pat rep t = t := by
  cases pat with
  | nil => rw [containsSub_nil_left] at h; cases h
  | cons p ps => exact replaceAllAux_of_not_contains _ rep t t.length h

/-- Pass 1 of the reference rewriter (paper_pipeline.py lines 386-390):
plain `str.replace` for every alias-map entry, in insertion order. -/
def pass1 (m : List (Str × Str)) (t : Str) : Str :=
  m.foldl (fun s e => replaceAll e.1 e.2 s) t

theorem pass1_id (m : List (Str × Str)) (t : Str)
    (h : ∀ e ∈ m, containsSub e.1 t = false) : pass1 m t = t := by
  induction m with
  | nil => rfl
  | cons e rest ih =>
    simp only [pass1, List.foldl_cons]
    rw [replaceAll_of_not_contains e.1 e.2 t (h e (List.mem_cons_self e rest))]
    exact ih (fun e' he' => h e' (List.mem_cons_of_mem e he'))

theorem pass1_append (m1 m2 : List (Str × Str)) (t : Str) :
    pass1 (m1 ++ m2) t = pass1 m2 (pass1 m1 t) := by
  simp [pass1, List.foldl_append]

/-- The two-character path prefix "./". -/
def dotSlash : Str := ['.', '/']

/-- Python `path.lstrip("./")`: removes every leading character that is a
dot or a slash (a character-set strip, not a prefix removal). -/
def normalizePath (p : Str) : Str :=
  p.dropWhile (fun c => decide (c = '.') || decide (c = '/'))

/-- Python `os.path.basename`: the segment after the last slash. -/
def basename (p : Str) : Str :=
  (p.reverse.takeWhile (fun c => decide (c ≠ '/'))).reverse

/-- Python `os.path.join` for one component, as used by the pipeline. -/
def joinP (a b : Str) : Str :=
  if leadsWith ['/'] b then b
  else if a = [] then b
  else if a.getLast? = some '/' then a ++ b
  else a ++ '/' :: b

/-- Insertion into a Python dict modelled as an association list: an
existing key keeps its position and gets the new value, a new key is
appended at the end (dicts preserve insertion order). -/
def dictInsert (k v : Str) : List (Str × Str) → List (Str × Str)
  | [] => [(k, v)]
  | e :: rest => if e.1 = k then (k, v) :: rest else e :: dictInsert k v rest

/-- Lookup in an association list, first match. -/
def lookupD : List (Str × Str) → Str → Option Str
  | [], _ => none
  | e :: rest, k => if e.1 = k then some e.2 else lookupD rest k

/-- Key-membership test, mirroring Python `key in dict`. -/
def hasKey (m : List (Str × Str)) (k : Str) : Bool :=
  m.any fun e => decide (e.1 = k)

/-- One iteration of the enhanced-map construction (paper_pipeline.py
lines 365-377): register the original local path, the `lstrip("./")`
variant when it differs, and the "./"-prefixed variant when the original
does not already start with "./". -/
def addVariants (m : List (Str × Str)) (p u : Str) : List (Str × Str) :=
  let m1 := dictInsert p u m
  let np := normalizePath p
  let m2 := if np = p then m1 else dictInsert np u m1
  if leadsWith dotSlash p then m2 else dictInsert (dotSlash ++ p) u m2

/-- The keys that `addVariants` touches for a given path. -/
def variantsOf (p : Str) : List Str :=
  p :: normalizePath p ::
    (if leadsWith dotSlash p then [] else [dotSlash ++ p])

/-- The enhanced image map `enhanced_image_map` built from
`image_url_map` in insertion order. -/
def buildEnhancedMap (ium : List (Str × Str)) : List (Str × Str) :=
  ium.foldl (fun m e => addVariants m e.1 e.2) []

/-- Literal fragment "data/" of the pass-2 regex. -/
def dataSlashS : Str := "data/".data

/-- Literal fragment "images_" of the pass-2 regex. -/
def imagesUnd : Str := "images_".data

/-- Matches `images_[^/]+/<fname>` at the start of `s`, returning the
matched text. The greedy `[^/]+` necessarily stops at the first slash. -/
def matchImagesPart (fname : Str) (s : Str) : Option Str :=
  if leadsWith imagesUnd s then
    let rest := s.drop 7
    let seg := rest.takeWhile fun c => decide (c ≠ '/')
    if seg.length = 0 then none
    else
      match rest.drop seg.length with
      | '/' :: after =>
        if leadsWith fname after then some (imagesUnd ++ seg ++ '/' :: fname)
        else none
      | _ => none
  else none

/-- Matches `(?:data/)?images_[^/]+/<fname>` at the start of `s`. When
"data/" is present but the remainder fails, the no-"data/" alternative
cannot match either (it would need `images_` where `data/` stands), so
no backtracking case is required. -/
def matchCoreAt (fname : Str) (s : Str) : Option Str :=
  if leadsWith dataSlashS s then
    (matchImagesPart fname (s.drop 5)).map fun m => dataSlashS ++ m
  else matchImagesPart fname s

/-- Matches the full pass-2 pattern `(\./)?(?:data/)?images_[^/]+/<fname>`
at the start of `s`. -/
def matchPatAt (fname : Str) (s : Str) : Option Str :=
  if leadsWith dotSlash s then
    (matchCoreAt fname (s.drop 2)).map fun m => dotSlash ++ m
  else matchCoreAt fname s

/-- Fuelled scanner mirroring `re.finditer`: leftmost matches, scanning
resumes after each match. Every successful match has length at least
nine, so text length is enough fuel. -/
def findAllAux (fname : Str) : Nat → Str → List Str
  | _, [] => []
  | 0, _ => []
  | fuel + 1, c :: rest =>
    match matchPatAt fname (c :: rest) with
    | some m => m :: findAllAux fname fuel (rest.drop (m.length - 1))
    | none => findAllAux fname fuel rest

/-- All pass-2 pattern matches of `fname` in `s`, in scanning order. -/
def findAllMatches (fname : Str) (s : Str) : List Str :=
  findAllAux fname s.length s

/-- One replacement step of pass 2 (paper_pipeline.py lines 401-414):
the matched path is replaced everywhere only when it still occurs in the
current text and is not a key of the enhanced map. -/
def pass2Step (enh : List (Str × Str)) (u : Str) (s : Str) (mt : Str) : Str :=
  if containsSub mt s && !hasKey enh mt then replaceAll mt u s else s

/-- Pass 2 handling of one `image_url_map` entry: `re.finditer` runs on
the text as it stands when the entry is reached, while replacements
update the text inside the loop. -/
def pass2Entry (enh : List (Str × Str)) (s : Str) (e : Str × Str) : Str :=
  (findAllMatches (basename e.1) s).foldl (pass2Step enh e.2) s

/-- Pass 2 of the reference rewriter over all `image_url_map` entries. -/
def pass2 (ium enh : List (Str × Str)) (t : Str) : Str :=
  ium.foldl (pass2Entry enh) t

/-- The reference rewriter of paper_pipeline.py lines 357-414: build the
enhanced alias map, run the exact-substring pass, then the regex pass. -/
def rewrite (ium : List (Str × Str)) (t : Str) : Str :=
  let enh := buildEnhancedMap ium
  pass2 ium enh (pass1 enh t)

theorem pass2Steps_id (enh : List (Str × Str)) (u : Str) (r : Str)
    (ms : List Str) (h : ∀ s ∈ ms, hasKey enh s = true) :
    ms.foldl (pass2Step enh u) r = r := by
  induction ms with
  | nil => rfl
  | cons mt rest ih =>
    simp only [List.foldl_cons]
    have hm : hasKey enh mt = true := h mt (List.mem_cons_self mt rest)
    rw [show pass2Step enh u r mt = r by simp [pass2Step, hm]]
    exact ih fun s hs => h s (List.mem_cons_of_mem mt hs)

theorem pass2_id (ium enh : List (Str × Str)) (r : Str)
    (h : ∀ e ∈ ium, ∀ s ∈ findAllMatches (basename e.1) r,
      hasKey enh s = true) : pass2 ium enh r = r := by
  induction ium with
  | nil => rfl
  | cons e rest ih =>
    simp only [pass2, List.foldl_cons]
    rw [show pass2Entry enh r e = r from
      pass2Steps_id enh e.2 r _ (h e (List.mem_cons_self e rest))]
    exact ih fun e' he' => h e' (List.mem_cons_of_mem e he')

/-- Alias map whose remote URL contains a local alias path. -/
def cex1Map : List (Str × Str) :=
  [("images_7/img-1".data, "https://h/images_7/img-1".data)]

/-- Text consisting of a single local image path. -/
def cex1Text : Str := "images_7/img-1".data

/-- Claim C1 counterexample: the reference rewriter is not idempotent for
every alias map and text; with an alias map whose remote URL contains an
alias path, a second application rewrites inside the URL produced by the
first (and thereby also alters a remote URL already present in the
intermediate text). -/
theorem claim1_counterexample :
    rewrite cex1Map (rewrite cex1Map cex1Text) ≠ rewrite cex1Map cex1Text := by
  decide

/-- Claim C1 (amended): the rewriter is idempotent on every input whose
rewritten form retains no occurrence of any alias-map key and whose
pass-2 matches are all alias-map keys; in that case the second
application performs no replacement. -/
theorem claim1_rewrite_idempotent (m : List (Str × Str)) (t : Str)
    (h1 : ∀ e ∈ buildEnhancedMap m,
      containsSub e.1 (rewrite m t) = false)
    (h2 : ∀ e ∈ m, ∀ s ∈ findAllMatches (basename e.1) (rewrite m t),
      hasKey (buildEnhancedMap m) s = true) :
    rewrite m (rewrite m t) = rewrite m t := by
  show pass2 m (buildEnhancedMap m)
    (pass1 (buildEnhancedMap m) (rewrite m t)) = rewrite m t
  rw [pass1_id (buildEnhancedMap m) (rewrite m t) h1]
  exact pass2_id m (buildEnhancedMap m) (rewrite m t) h2

/-- Alias map for the idempotence witness. -/
def wit1Map : List (Str × Str) :=
  [("images_7/img-1".data, "https://host/a.png".data)]

/-- Text for the idempotence witness. -/
def wit1Text : Str := "see ./images_7/img-1 end".data

/-- Witness for the amended claim C1 at a concrete alias map and text. -/
theorem claim1_rewrite_idempotent_witness :
    rewrite wit1Map (rewrite wit1Map wit1Text) = rewrite wit1Map wit1Text :=
  claim1_rewrite_idempotent wit1Map wit1Text (by decide) (by decide)

/-- Image-url map whose second local path contains the first as a proper
substring, in the order the pipeline inserts them. -/
def cex3Map : List (Str × Str) :=
  [("./d/img-1".data, "u1".data), ("./d/img-10".data, "u2".data)]

/-- Text containing only the longer alias path. -/
def cex3Text : Str := "a ./d/img-10 b".data

/-- Claim C3 counterexample: pass 1 substitutes in insertion order with
no longer-path-first safeguard, so the earlier shorter alias "./d/img-1"
corrupts the occurrence of the longer alias "./d/img-10", whose URL "u2"
never appears in the output. -/
theorem claim3_counterexample :
    ("./d/img-10".data, "u2".data) ∈ buildEnhancedMap cex3Map ∧
    containsSub ("./d/img-10".data) cex3Text = true ∧
    pass1 (buildEnhancedMap cex3Map) cex3Text = "a u10 b".data ∧
    containsSub ("u2".data) (pass1 (buildEnhancedMap cex3Map) cex3Text)
      = false := by
  refine ⟨by decide, by decide, by decide, by decide⟩

/-- Claim C3 (amended): pass 1 applies substitutions strictly in the
insertion order of the alias map (splitting the map splits the pass
sequentially), and the longer-before-shorter safeguard does not exist:
there is an alias map produced by the pipeline's own variant
construction and a text in which an occurrence of a longer alias path is
corrupted, its URL never appearing in the output. -/
theorem claim3_insertion_order :
    (∀ (m1 m2 : List (Str × Str)) (t : Str),
      pass1 (m1 ++ m2) t = pass1 m2 (pass1 m1 t)) ∧
    (∃ (m : List (Str × Str)) (k u t : Str),
      (k, u) ∈ buildEnhancedMap m ∧ containsSub k t = true ∧
      containsSub u (pass1 (buildEnhancedMap m) t) = false) := by
  refine ⟨pass1_append, ⟨cex3Map, "./d/img-10".data, "u2".data, cex3Text,
    by decide, by decide, by decide⟩⟩

theorem lookupD_dictInsert (m : List (Str × Str)) (k v k2 : Str) :
    lookupD (dictInsert k v m) k2 =
      if k2 = k then some v else lookupD m k2 := by
  induction m with
  | nil => simp [dictInsert, lookupD, eq_comm]
  | cons e rest ih =>
    by_cases he : e.1 = k
    · simp only [dictInsert, he, if_true, lookupD]
      by_cases hk : k2 = k
      · simp [hk]
      · simp [hk, lookupD, show ¬ k = k2 from fun h => hk h.symm]
    · simp only [dictInsert, he, if_false, lookupD, ih]
      by_cases hk : k2 = k
      · subst hk
        simp [he]
      · simp [hk]

theorem lookupD_addVariants (m : List (Str × Str)) (q w k : Str) :
    lookupD (addVariants m q w) k =
      if k ∈ variantsOf q then some w else lookupD m k := by
  by_cases hsw : leadsWith dotSlash q <;>
    by_cases hnp : normalizePath q = q <;>
      by_cases hq : k = q <;>
        by_cases hn : k = normalizePath q <;>
          by_cases hd : k = dotSlash ++ q <;>
            simp [addVariants, variantsOf, hsw, hnp, hq, hn, hd,
              lookupD_dictInsert, show dotSlash ≠ [] from fun h => by cases h]

theorem lookupD_buildFold_of_some (rest : List (Str × Str))
    (m0 : List (Str × Str)) (k u : Str) (h0 : lookupD m0 k = some u)
    (h : ∀ e ∈ rest, k ∈ variantsOf e.1 → e.2 = u) :
    lookupD (rest.foldl (fun m e => addVariants m e.1 e.2) m0) k = some u := by
  induction rest generalizing m0 with
  | nil => exact h0
  | cons e tail ih =>
    simp only [List.foldl_cons]
    refine ih (addVariants m0 e.1 e.2) ?_ ?_
    · rw [lookupD_addVariants]
      by_cases hk : k ∈ variantsOf e.1
      · simp [hk, h e (List.mem_cons_self e tail) hk]
      · simp [hk, h0]
    · exact fun e' he' => h e' (List.mem_cons_of_mem e he')

theorem lookupD_buildFold_mem (m : List (Str × Str)) :
    ∀ (m0 : List (Str × Str)) (p u k : Str), (p, u) ∈ m →
      k ∈ variantsOf p → (∀ e ∈ m, k ∈ variantsOf e.1 → e.2 = u) →
      lookupD (m.foldl (fun m' e => addVariants m' e.1 e.2) m0) k = some u := by
  induction m with
  | nil => intro _ _ _ _ hmem; cases hmem
  | cons e tail ih =>
    intro m0 p u k hmem hk h
    simp only [List.foldl_cons]
    rcases List.mem_cons.mp hmem with heq | htail
    · subst heq
      refine lookupD_buildFold_of_some tail _ k u ?_
        (fun e' he' => h e' (List.mem_cons_of_mem _ he'))
      rw [lookupD_addVariants]
      simp [hk]
    · exact ih _ p u k htail hk
        (fun e' he' => h e' (List.mem_cons_of_mem e he'))

/-- The spec's "spelling without a leading './'": the two-character
prefix "./" is removed when present (this is the claim's vocabulary; the
source instead strips the character set {'.', '/'}). -/
def stripLeadDS (p : Str) : Str :=
  if leadsWith dotSlash p then p.drop 2 else p

/-- Paths for which the character-set strip of the source coincides with
removing one leading "./": either no leading "./", or whatever follows
it starts with neither '.' nor '/'. -/
def goodPath (p : Str) : Bool :=
  !leadsWith dotSlash p ||
    (match (p.drop 2).head? with
     | none => true
     | some c => decide (c ≠ '.') && decide (c ≠ '/'))

theorem leadsWith_dotSlash_shape (p : Str) (h : leadsWith dotSlash p = true) :
    ∃ rest, p = '.' :: '/' :: rest := by
  match p with
  | [] => simp [leadsWith, dotSlash] at h
  | [c] => simp [leadsWith, dotSlash] at h
  | c1 :: c2 :: rest =>
    simp only [dotSlash, leadsWith, Bool.and_eq_true, decide_eq_true_eq] at h
    exact ⟨rest, by rw [← h.1, ← h.2.1]⟩

theorem variantsOf_of_goodPath (p : Str) (h : goodPath p = true) :
    stripLeadDS p ∈ variantsOf p ∧ dotSlash ++ stripLeadDS p ∈ variantsOf p := by
  by_cases hsw : leadsWith dotSlash p
  · obtain ⟨rest, rfl⟩ := leadsWith_dotSlash_shape p hsw
    have hstrip : stripLeadDS ('.' :: '/' :: rest) = rest := by
      simp [stripLeadDS, hsw]
    have hnorm : normalizePath ('.' :: '/' :: rest) = rest := by
      simp only [goodPath, hsw, Bool.not_true, Bool.false_or] at h
      match rest, h with
      | [], _ => rfl
      | c :: tail, h =>
        simp only [List.drop_succ_cons, List.drop_zero, List.head?_cons,
          Bool.and_eq_true, decide_eq_true_eq] at h
        simp [normalizePath, List.dropWhile, h.1, h.2]
    constructor
    · have heq : stripLeadDS ('.' :: '/' :: rest) =
          normalizePath ('.' :: '/' :: rest) := by rw [hstrip, hnorm]
      rw [heq]
      simp [variantsOf]
    · have heq : dotSlash ++ stripLeadDS ('.' :: '/' :: rest) =
          '.' :: '/' :: rest := by rw [hstrip]; rfl
      rw [heq]
      simp [variantsOf]
  · have hstrip : stripLeadDS p = p := by simp [stripLeadDS, hsw]
    constructor
    · rw [hstrip]; exact List.mem_cons_self _ _
    · rw [hstrip]
      simp [variantsOf, hsw]

/-- The example image-url map of the spec (one uploaded image). -/
def ex5Map : List (Str × Str) :=
  [("images_7_2024-01-01/img-1".data, "https://host/a.png".data)]

/-- The example summary text referencing the "./" spelling. -/
def ex5Text : Str := "![fig](./images_7_2024-01-01/img-1)".data

/-- Claim C5 counterexample: the source strips the character set
{'.', '/'} (Python `lstrip("./")`), not the prefix "./", so for an
uploaded image whose local path is "./.cache/images_7_2024-01-01/img-1"
the spelling without the leading "./" is absent from the alias map. -/
theorem claim5_counterexample :
    (("./.cache/images_7_2024-01-01/img-1".data, "u".data) ∈
      [(("./.cache/images_7_2024-01-01/img-1").data, "u".data)]) ∧
    lookupD
      (buildEnhancedMap [(("./.cache/images_7_2024-01-01/img-1").data,
        "u".data)])
      (stripLeadDS ("./.cache/images_7_2024-01-01/img-1".data)) = none := by
  exact ⟨by decide, by decide⟩

/-- Claim C5 (amended): for every successfully uploaded image whose
local path either has no leading "./" or, after the leading "./",
continues with neither '.' nor '/', and whose spelling variants are not
later overwritten with a different URL, the alias map maps both the
spelling without the leading "./" and the spelling with it to the
image's remote URL; and on the spec's example the rewritten text
contains the remote URL and no remaining local path. -/
theorem claim5_alias_spellings :
    (∀ (m : List (Str × Str)) (p u : Str), (p, u) ∈ m →
      goodPath p = true →
      (∀ e ∈ m, (stripLeadDS p ∈ variantsOf e.1 ∨
        dotSlash ++ stripLeadDS p ∈ variantsOf e.1) → e.2 = u) →
      lookupD (buildEnhancedMap m) (stripLeadDS p) = some u ∧
      lookupD (buildEnhancedMap m) (dotSlash ++ stripLeadDS p) = some u) ∧
    (containsSub ("https://host/a.png".data) (rewrite ex5Map ex5Text) = true ∧
     containsSub ("images_7_2024-01-01/img-1".data)
       (rewrite ex5Map ex5Text) = false) := by
  constructor
  · intro m p u hmem hgood hclash
    obtain ⟨h1, h2⟩ := variantsOf_of_goodPath p hgood
    constructor
    · exact lookupD_buildFold_mem m [] p u _ hmem h1
        (fun e he hk => hclash e he (Or.inl hk))
    · exact lookupD_buildFold_mem m [] p u _ hmem h2
        (fun e he hk => hclash e he (Or.inr hk))
  · exact ⟨by decide, by decide⟩

/-- Witness for the amended claim C5 at a concrete uploaded image. -/
theorem claim5_alias_spellings_witness :
    lookupD
      (buildEnhancedMap [(("./data/images_7_2024-01-01/img-1").data,
        ("https://host/a.png").data)])
      (stripLeadDS ("./data/images_7_2024-01-01/img-1".data)) =
      some ("https://host/a.png".data) ∧
    lookupD
      (buildEnhancedMap [(("./data/images_7_2024-01-01/img-1").data,
        ("https://host/a.png").data)])
      (dotSlash ++ stripLeadDS ("./data/images_7_2024-01-01/img-1".data)) =
      some ("https://host/a.png".data) :=
  claim5_alias_spellings.1 _ _ _ (by decide) (by decide) (by decide)

/-- Environment variable name "HTTP_PROXY". -/
def kHTTPProxy : Str := "HTTP_PROXY".data

/-- Environment variable name "HTTPS_PROXY". -/
def kHTTPSProxy : Str := "HTTPS_PROXY".data

/-- Environment variable name "http_proxy". -/
def kHttpProxyLower : Str := "http_proxy".data

/-- Environment variable name "https_proxy". -/
def kHttpsProxyLower : Str := "https_proxy".data

/-- Environment variable name "NO_PROXY". -/
def kNoProxyUpper : Str := "NO_PROXY".data

/-- Environment variable name "no_proxy". -/
def kNoProxyLower : Str := "no_proxy".data

/-- The string "1" that enables the proxy opt-out. -/
def oneS : Str := ['1']

/-- Scheme key "http" of the proxies dict. -/
def httpKey : Str := "http".data

/-- Scheme key "https" of the proxies dict. -/
def httpsKey : Str := "https".data

/-- Python truthiness of `os.environ.get(name)`: set and non-empty. -/
def envTruthy : Option Str → Bool
  | none => false
  | some s => !s.isEmpty

/-- The proxies dict assembled by get_proxies (get_pdf.py lines 14-24):
uppercase variables first, lowercase ones only filling still-unset keys. -/
def buildProxyMapFromEnv (env : Str → Option Str) : List (Str × Str) :=
  let m0 : List (Str × Str) := []
  let m1 := match env kHTTPProxy with
    | some s => if s.isEmpty then m0 else dictInsert httpKey s m0
    | none => m0
  let m2 := match env kHTTPSProxy with
    | some s => if s.isEmpty then m1 else dictInsert httpsKey s m1
    | none => m1
  let m3 :=
    if lookupD m2 httpKey = none then
      match env kHttpProxyLower with
      | some s => if s.isEmpty then m2 else dictInsert httpKey s m2
      | none => m2
    else m2
  if lookupD m3 httpsKey = none then
    match env kHttpsProxyLower with
    | some s => if s.isEmpty then m3 else dictInsert httpsKey s m3
    | none => m3
  else m3

/-- get_proxies (get_pdf.py lines 12-34): build the proxies dict, return
None when the opt-out matches the exact string "1", else the dict or
None when it is empty. -/
def get_proxies (env : Str → Option Str) : Option (List (Str × Str)) :=
  let proxies := buildProxyMapFromEnv env
  if env kNoProxyUpper = some oneS ∨ env kNoProxyLower = some oneS then none
  else if proxies = [] then none
  else some proxies

/-- Claim C10: the proxy opt-out fires only when NO_PROXY or no_proxy is
exactly "1" — then get_proxies returns no proxies even if proxy
variables are set; for every other value the configured proxy settings
are returned unchanged. -/
theorem claim10_no_proxy_exact_one :
    (∀ env : Str → Option Str,
      env kNoProxyUpper = some oneS ∨ env kNoProxyLower = some oneS →
      get_proxies env = none) ∧
    (∀ env : Str → Option Str,
      env kNoProxyUpper ≠ some oneS → env kNoProxyLower ≠ some oneS →
      get_proxies env =
        (if buildProxyMapFromEnv env = [] then none
         else some (buildProxyMapFromEnv env))) := by
  constructor
  · intro env h
    simp [get_proxies, h]
  · intro env h1 h2
    simp [get_proxies, h1, h2]

/-- Environment with NO_PROXY set to "true" and an HTTP proxy configured. -/
def envWitness10 : Str → Option Str := fun k =>
  if k = kNoProxyUpper then some ("true".data)
  else if k = kHTTPProxy then some ("http://p:8080".data)
  else none

/-- Witness for claim C10: NO_PROXY="true" does not disable the proxy. -/
theorem claim10_no_proxy_exact_one_witness :
    get_proxies envWitness10 = some [(httpKey, "http://p:8080".data)] := by
  rw [claim10_no_proxy_exact_one.2 envWitness10 (by decide) (by decide)]
  decide

/-- Outcome of one download attempt, as raised by the requests calls. -/
inductive AttemptOutcome where
  | success
  | timeout
  | reqError
deriving DecidableEq

/-- Parameters actually used by one download attempt. -/
structure AttemptRecord where
  usesProxy : Bool
  timeoutSec : ℚ
deriving DecidableEq

/-- The retry loop of download_pdf (get_pdf.py lines 125-191): attempt 1
uses the configured proxy, later attempts disable it; a timeout
multiplies the timeout by 1.5 when attempts remain; other request errors
leave it unchanged; success stops the loop. The first argument of the
recursion is the number of attempts remaining. -/
def runAttemptsAux (cfgProxy : Bool) (eff : Nat → AttemptOutcome)
    (maxRetries : Nat) : Nat → Nat → ℚ → List AttemptRecord
  | 0, _, _ => []
  | r + 1, attempt, t =>
    let rec0 : AttemptRecord := ⟨decide (attempt = 1) && cfgProxy, t⟩
    match eff attempt with
    | .success => [rec0]
    | .timeout =>
      rec0 :: runAttemptsAux cfgProxy eff maxRetries r (attempt + 1)
        (if attempt < maxRetries then t * (3 / 2) else t)
    | .reqError =>
      rec0 :: runAttemptsAux cfgProxy eff maxRetries r (attempt + 1) t

/-- The per-attempt parameter trace of download_pdf for a given outcome
oracle `eff` (attempt number to outcome). -/
def downloadAttempts (cfgProxy : Bool) (eff : Nat → AttemptOutcome)
    (maxRetries : Nat) (t : ℚ) : List AttemptRecord :=
  runAttemptsAux cfgProxy eff maxRetries maxRetries 1 t

/-- Claim C2: with maxAttempts 3 and the first two attempts timing out,
the attempts use timeouts t, 1.5t and 2.25t, the proxy only on attempt
1; and after a non-timeout request failure the next attempt keeps the
same timeout. -/
theorem claim2_retry_schedule :
    (∀ (cfg : Bool) (eff : Nat → AttemptOutcome) (t : ℚ),
      eff 1 = .timeout → eff 2 = .timeout →
      downloadAttempts cfg eff 3 t =
        [⟨cfg, t⟩, ⟨false, t * (3 / 2)⟩, ⟨false, t * (3 / 2) * (3 / 2)⟩] ∧
      t * (3 / 2) * (3 / 2) = t * (9 / 4)) ∧
    (∀ (cfg : Bool) (eff : Nat → AttemptOutcome)
      (maxRetries r attempt : Nat) (t : ℚ), eff attempt = .reqError →
      runAttemptsAux cfg eff maxRetries (r + 1) attempt t =
        ⟨decide (attempt = 1) && cfg, t⟩ ::
          runAttemptsAux cfg eff maxRetries r (attempt + 1) t) := by
  constructor
  · intro cfg eff t h1 h2
    constructor
    · cases h3 : eff 3 <;>
        simp [downloadAttempts, runAttemptsAux, h1, h2, h3]
    · ring
  · intro cfg eff maxRetries r attempt t h
    simp [runAttemptsAux, h]

/-- Outcome oracle timing out twice then succeeding. -/
def effWitness2 : Nat → AttemptOutcome := fun n =>
  if n ≤ 2 then .timeout else .success

/-- Witness for claim C2 at a configured proxy and a 30 second timeout. -/
theorem claim2_retry_schedule_witness :
    downloadAttempts true effWitness2 3 30 =
      [⟨true, 30⟩, ⟨false, 45⟩, ⟨false, 135 / 2⟩] := by
  rw [(claim2_retry_schedule.1 true effWitness2 30 rfl rfl).1]
  norm_num

/-- Boolean test that the first list is a final segment of the second,
mirroring Python `str.endswith`. -/
def endsWith (suf s : Str) : Bool := leadsWith suf.reverse s.reverse

/-- The ".pdf" extension. -/
def pdfSuffix : Str := ".pdf".data

/-- The fallback filename "paper.pdf". -/
def fallbackPdfName : Str := "paper.pdf".data

/-- Filename derivation of download_pdf (get_pdf.py lines 143-147): the
last path segment of the URL, or "paper.pdf" when it lacks the ".pdf"
extension. -/
def pdfFilename (url : Str) : Str :=
  let seg := basename url
  if endsWith pdfSuffix seg then seg else fallbackPdfName

/-- Where one download attempt can fail relative to the streamed write:
before the response is established and the file opened, or after some
number of chunks has been written to the output file. -/
inductive DlOutcome where
  | failBeforeWrite
  | failDuring (chunksWritten : Nat)
  | complete
deriving DecidableEq

/-- The body of the streaming loop (get_pdf.py lines 156-159): each
non-empty chunk is appended to the open file. -/
def streamLoop (chunks : List Str) (acc : Str) : Str :=
  chunks.foldl (fun a c => if c = [] then a else a ++ c) acc

/-- The files (path, content) present in the output directory after one
download attempt: the open call targets the final filename directly, so
a failure during streaming leaves the partial content there. -/
def attemptWrites (outputDir url : Str) (chunks : List Str) :
    DlOutcome → List (Str × Str)
  | .failBeforeWrite => []
  | .failDuring k => [(joinP outputDir (pdfFilename url), streamLoop (chunks.take k) [])]
  | .complete => [(joinP outputDir (pdfFilename url), streamLoop chunks [])]

theorem streamLoop_eq_flatten (chunks : List Str) :
    ∀ acc, streamLoop chunks acc = acc ++ chunks.flatten := by
  induction chunks with
  | nil => intro acc; simp [streamLoop]
  | cons c rest ih =>
    intro acc
    have step : streamLoop (c :: rest) acc =
        streamLoop rest (if c = [] then acc else acc ++ c) := rfl
    rw [step]
    by_cases hc : c = []
    · rw [if_pos hc, ih acc, hc]
      simp
    · rw [if_neg hc, ih (acc ++ c)]
      simp [List.append_assoc]

/-- Claim C8 counterexample: an attempt that times out after one chunk
leaves a partial file at the final committed location in the output
directory. -/
theorem claim8_counterexample :
    attemptWrites ("./data".data) ("https://x/p.pdf".data)
      ["ab".data, "cd".data] (.failDuring 1) =
      [("./data/p.pdf".data, "ab".data)] ∧
    attemptWrites ("./data".data) ("https://x/p.pdf".data)
      ["ab".data, "cd".data] (.failDuring 1) ≠ [] := by
  exact ⟨by decide, by decide⟩

/-- Claim C8 (amended): a successful attempt writes exactly one file,
the full content at the final path; a failure before the response is
established writes nothing; but a failure during streaming leaves a
partial file (the chunks written so far) at the final path, because the
streamed write targets the final filename directly. -/
theorem claim8_write_behavior (outputDir url : Str) (chunks : List Str)
    (k : Nat) :
    attemptWrites outputDir url chunks .complete =
      [(joinP outputDir (pdfFilename url), chunks.flatten)] ∧
    attemptWrites outputDir url chunks .failBeforeWrite = [] ∧
    attemptWrites outputDir url chunks (.failDuring k) =
      [(joinP outputDir (pdfFilename url), (chunks.take k).flatten)] := by
  refine ⟨?_, rfl, ?_⟩
  · simp [attemptWrites, streamLoop_eq_flatten]
  · simp [attemptWrites, streamLoop_eq_flatten]

/-- Payload of one OCR image descriptor: inline base64 data (whose
decode-and-save can fail) or a bare identifier naming a source file
(which can be absent). -/
inductive ImgPayload where
  | inlineData (decodeOk : Bool)
  | fileRef (filePresent : Bool)
deriving DecidableEq

/-- One image descriptor of the BackendB (Mistral OCR) response. -/
structure OcrImage where
  id : Str
  payload : ImgPayload
deriving DecidableEq

/-- One page of the OCR response: markdown text and image descriptors. -/
structure OcrPage where
  markdown : Str
  images : List OcrImage
deriving DecidableEq

/-- Observable rehosting events: one per image occurrence actually
processed (with whether materialization succeeded), and one per upload
attempt with the host's answer. -/
inductive RehostEv where
  | occurrence (id : Str) (ok : Bool)
  | upAttempt (fname : Str) (result : Option Str)
deriving DecidableEq

/-- Rehosting configuration: whether the image-host uploader was
initialized, the host's answer per uploaded file, and the directories
making up the materialized path. -/
structure RCfg where
  uploaderAvail : Bool
  upload : Str → Option Str
  outputDir : Str
  imageDir : Str

/-- Running state of the rehosting loop: accumulated document text, the
`image_refs` set, the `image_url_map` dict and the event log. -/
structure RState where
  content : Str
  refs : List Str
  urlMap : List (Str × Str)
  evs : List RehostEv

/-- The materialized path `os.path.join(output_dir, image_dir, img_id)`. -/
def imgFname (cfg : RCfg) (id : Str) : Str :=
  joinP (joinP cfg.outputDir cfg.imageDir) id

/-- The markdown reference written by the OCR backend for an image. -/
def mdRefOld (id : Str) : Str := "![".data ++ id ++ "](".data ++ id ++ [')']

/-- The markdown reference substituted by the pipeline. -/
def mdRefNew (fname : Str) : Str :=
  "![Figure from paper](".data ++ fname ++ [')']

/-- Upload of one materialized image (paper_pipeline.py lines 268-281,
297-310): only when the uploader is available; a successful answer is
recorded in `image_url_map`, a failure is absorbed. -/
def uploadStep (cfg : RCfg) (fname : Str) (st : RState) : RState :=
  if cfg.uploaderAvail then
    let r := cfg.upload fname
    let st1 := { st with evs := st.evs ++ [RehostEv.upAttempt fname r] }
    match r with
    | some url => { st1 with urlMap := dictInsert fname url st1.urlMap }
    | none => st1
  else st

/-- Processing of one image descriptor (paper_pipeline.py lines
245-322): ids already in `image_refs` are skipped; a failed
materialization (bad base64 or missing source file) is skipped without
registering the id; a successful one is uploaded, the page text is
rewritten to the materialized path, and the id is registered. -/
def processImg (cfg : RCfg) (acc : Str × RState) (img : OcrImage) :
    Str × RState :=
  let (pc, st) := acc
  if img.id ∈ st.refs then acc
  else
    let ok := match img.payload with
      | .inlineData d => d
      | .fileRef p => p
    if ok then
      let fname := imgFname cfg img.id
      let st1 := { st with evs := st.evs ++ [RehostEv.occurrence img.id true] }
      let st2 := uploadStep cfg fname st1
      let pc2 := replaceAll (mdRefOld img.id) (mdRefNew fname) pc
      (pc2, { st2 with refs := img.id :: st2.refs })
    else
      (pc, { st with evs := st.evs ++ [RehostEv.occurrence img.id false] })

/-- Processing of one page (paper_pipeline.py lines 238-324): pages with
no markdown are skipped entirely; otherwise the images are processed and
the rewritten page text is appended to the document. -/
def processPage (cfg : RCfg) (st : RState) (pg : OcrPage) : RState :=
  if pg.markdown = [] then st
  else
    let r := pg.images.foldl (processImg cfg) (pg.markdown, st)
    { r.2 with content := r.2.content ++ r.1 }

/-- The asset-rehosting phase over the whole OCR response. -/
def rehost (cfg : RCfg) (pages : List OcrPage) : RState :=
  pages.foldl (processPage cfg) ⟨[], [], [], []⟩

/-- The ids of occurrence events whose materialization succeeded, in
order: these are the occurrences processed as assets. -/
def okIds (evs : List RehostEv) : List Str :=
  evs.filterMap fun e =>
    match e with
    | .occurrence i true => some i
    | _ => none

/-- Python `a or b` for optional strings: an empty string is falsy. -/
def orFalsy (a b : Option Str) : Option Str :=
  match a with
  | some s => if s = [] then b else some s
  | none => b

/-- The SMmsUploader constructor message for a missing token. -/
def tokenErrMsg : Str :=
  "API token required. Set SMMS_API_KEY environment variable or pass token parameter.".data

/-- SMmsUploader.__init__ (sm_ms_uploader.py lines 15-28): the explicit
token or the SMMS_API_KEY variable; a missing or empty token raises. -/
def smmsInit (tok envTok : Option Str) : Except Str Str :=
  match orFalsy tok envTok with
  | some s => if s = [] then Except.error tokenErrMsg else Except.ok s
  | none => Except.error tokenErrMsg

/-- Events observable from one run of process_paper. -/
inductive PEvent where
  | rehostEv (e : RehostEv)
  | summarized
  | rewrittenEv
  | saved (content : Str)
deriving DecidableEq

/-- Inputs and collaborator behaviors of one process_paper run. A `none`
download result covers both a missing link and an exhausted download; a
`none` parsedPages covers a result.json that cannot be parsed; the
Boolean flags state whether the summarization call and the rewriting
step run without raising. -/
structure PaperEnv where
  downloadResult : Option Str
  smmsEnvToken : Option Str
  parsedPages : Option (List OcrPage)
  upload : Str → Option Str
  outputDir : Str
  imageDir : Str
  paperId : Str
  date : Str
  summarizeOk : Bool
  summaryText : Str
  rewriteOk : Bool

/-- Whether the SM.MS uploader could be initialized for this run
(paper_pipeline.py lines 201-207: the constructor error is caught and
the uploader set to None). -/
def uploaderAvail (env : PaperEnv) : Bool :=
  match smmsInit none env.smmsEnvToken with
  | .ok _ => true
  | .error _ => false

/-- The rehosting configuration of this run. -/
def envCfg (env : PaperEnv) : RCfg :=
  ⟨uploaderAvail env, env.upload, env.outputDir, env.imageDir⟩

/-- The summary filename `summary_<id>_<date>.md`. -/
def summaryFilename (env : PaperEnv) : Str :=
  "summary_".data ++ env.paperId ++ ['_'] ++ env.date ++ ".md".data

/-- process_paper (paper_pipeline.py lines 159-430) with its observable
event trace: any failure inside the try block is caught and yields None;
the summary file is written only at the very end, after rewriting, and
contains the rewritten summary. -/
def processPaperT (env : PaperEnv) : Option Str × List PEvent :=
  match env.downloadResult with
  | none => (none, [])
  | some _ =>
    match env.parsedPages with
    | none => (none, [])
    | some pages =>
      let st := rehost (envCfg env) pages
      let evs0 := st.evs.map PEvent.rehostEv
      if st.content = [] then (none, evs0)
      else if env.summarizeOk then
        if env.rewriteOk then
          let processed := rewrite st.urlMap env.summaryText
          (some (summaryFilename env),
            evs0 ++ [PEvent.summarized, PEvent.rewrittenEv,
              PEvent.saved processed])
        else (none, evs0 ++ [PEvent.summarized])
      else (none, evs0)

/-- The value returned by process_paper: the summary filename or None. -/
def processPaper (env : PaperEnv) : Option Str := (processPaperT env).1

/-- The orchestrator's accumulation (paper_pipeline.py lines 487-489):
the summary files of the papers whose processing succeeded. -/
def runPipeline (envs : List PaperEnv) : List Str :=
  envs.filterMap processPaper

/-- Invariant of the rehosting loop: the successfully processed ids are
pairwise distinct, and `image_refs` holds exactly those ids. -/
def rehostInv (st : RState) : Prop :=
  (okIds st.evs).Nodup ∧ ∀ i, i ∈ st.refs ↔ i ∈ okIds st.evs

theorem okIds_append (a b : List RehostEv) :
    okIds (a ++ b) = okIds a ++ okIds b := by
  simp [okIds, List.filterMap_append]

theorem uploadStep_refs (cfg : RCfg) (fname : Str) (st : RState) :
    (uploadStep cfg fname st).refs = st.refs := by
  unfold uploadStep
  by_cases h : cfg.uploaderAvail <;> cases hr : cfg.upload fname <;>
    simp [h, hr]

theorem uploadStep_okIds (cfg : RCfg) (fname : Str) (st : RState) :
    okIds (uploadStep cfg fname st).evs = okIds st.evs := by
  unfold uploadStep
  by_cases h : cfg.uploaderAvail <;> cases hr : cfg.upload fname <;>
    simp [h, hr, okIds_append, okIds]

theorem processImg_inv (cfg : RCfg) (pc : Str) (st : RState)
    (img : OcrImage) (h : rehostInv st) :
    rehostInv (processImg cfg (pc, st) img).2 := by
  unfold processImg
  by_cases hmem : img.id ∈ st.refs
  · simpa [hmem] using h
  · simp only [hmem, if_false]
    set ok := (match img.payload with
      | .inlineData d => d
      | .fileRef p => p) with hok
    by_cases hk : ok
    · have hnotin : img.id ∉ okIds st.evs := fun hin =>
        hmem ((h.2 img.id).mpr hin)
      simp only [hk, if_true]
      constructor
      · simp only [uploadStep_okIds, okIds_append]
        rw [show okIds [RehostEv.occurrence img.id true] = [img.id] from rfl]
        simp [List.nodup_append, h.1, List.disjoint_singleton, hnotin]
      · intro i
        simp only [uploadStep_refs, List.mem_cons, uploadStep_okIds,
          okIds_append]
        rw [show okIds [RehostEv.occurrence img.id true] = [img.id] from rfl]
        simp [h.2 i, or_comm]
    · rw [if_neg hk]
      constructor
      · rw [show ((pc, { st with
            evs := st.evs ++ [RehostEv.occurrence img.id false] }) :
            Str × RState).2.evs =
            st.evs ++ [RehostEv.occurrence img.id false] from rfl,
          okIds_append,
          show okIds [RehostEv.occurrence img.id false] = [] from rfl]
        simpa using h.1
      · intro i
        rw [show ((pc, { st with
            evs := st.evs ++ [RehostEv.occurrence img.id false] }) :
            Str × RState).2.evs =
            st.evs ++ [RehostEv.occurrence img.id false] from rfl,
          okIds_append,
          show okIds [RehostEv.occurrence img.id false] = [] from rfl]
        simpa using h.2 i

theorem processImgs_inv (cfg : RCfg) (images : List OcrImage) :
    ∀ (pc : Str) (st : RState), rehostInv st →
      rehostInv ((images.foldl (processImg cfg) (pc, st)).2) := by
  induction images with
  | nil => intro pc st h; exact h
  | cons img rest ih =>
    intro pc st h
    simp only [List.foldl_cons]
    exact ih (processImg cfg (pc, st) img).1 (processImg cfg (pc, st) img).2
      (processImg_inv cfg pc st img h)

theorem processPage_inv (cfg : RCfg) (st : RState) (pg : OcrPage)
    (h : rehostInv st) : rehostInv (processPage cfg st pg) := by
  unfold processPage
  by_cases hm : pg.markdown = []
  · simpa [hm] using h
  · simp only [hm, if_false]
    have := processImgs_inv cfg pg.images pg.markdown st h
    exact ⟨this.1, this.2⟩

theorem rehost_inv (cfg : RCfg) (pages : List OcrPage) :
    rehostInv (rehost cfg pages) := by
  unfold rehost
  generalize hinit : (⟨[], [], [], []⟩ : RState) = st0
  have h0 : rehostInv st0 := by
    rw [← hinit]
    exact ⟨List.nodup_nil, by simp [okIds]⟩
  clear hinit
  induction pages generalizing st0 with
  | nil => exact h0
  | cons pg rest ih =>
    simp only [List.foldl_cons]
    exact ih (processPage cfg st0 pg) (processPage_inv cfg st0 pg h0)

/-- Upload answer used in the duplicate-image example. -/
def ex4Upload : Str → Option Str := fun _ => some ("https://host/a.png".data)

/-- Configuration of the duplicate-image example. -/
def ex4Cfg : RCfg :=
  ⟨true, ex4Upload, "./data".data, "images_7_2024-01-01".data⟩

/-- BackendB response with the image id "img-1" on pages 1 and 3. -/
def ex4Pages : List OcrPage :=
  [⟨"page1 ".data, [⟨"img-1".data, ImgPayload.inlineData true⟩]⟩,
   ⟨"page2 ".data, []⟩,
   ⟨"page3 ".data, [⟨"img-1".data, ImgPayload.inlineData true⟩]⟩]

/-- Claim C4: rehosting processes every image id at most once — the
successfully materialized ids are pairwise distinct for every document
and configuration — and on a response carrying id "img-1" on pages 1
and 3, exactly one occurrence is processed, one upload happens, and
`image_url_map` holds exactly one entry for it. -/
theorem claim4_unique_rehosted_assets :
    (∀ (cfg : RCfg) (pages : List OcrPage),
      (okIds (rehost cfg pages).evs).Nodup) ∧
    (rehost ex4Cfg ex4Pages).evs =
      [RehostEv.occurrence ("img-1".data) true,
       RehostEv.upAttempt ("./data/images_7_2024-01-01/img-1".data)
         (some ("https://host/a.png".data))] ∧
    (rehost ex4Cfg ex4Pages).urlMap =
      [("./data/images_7_2024-01-01/img-1".data,
        "https://host/a.png".data)] := by
  refine ⟨fun cfg pages => (rehost_inv cfg pages).1, by decide, by decide⟩

/-- Claim C6: any single paper failing (download exhausted, parse
failure, or summarization failure) yields None for that paper, and the
orchestrator's accumulation over a batch simply drops it while every
other paper in the batch is still processed. -/
theorem claim6_per_paper_isolation :
    (∀ env : PaperEnv,
      env.downloadResult = none ∨ env.parsedPages = none ∨
        env.summarizeOk = false → processPaper env = none) ∧
    (∀ (envs1 : List PaperEnv) (env : PaperEnv) (envs2 : List PaperEnv),
      processPaper env = none →
      runPipeline (envs1 ++ env :: envs2) =
        runPipeline envs1 ++ runPipeline envs2) := by
  constructor
  · intro env h
    unfold processPaper processPaperT
    rcases h with h | h | h
    · simp [h]
    · rcases hd : env.downloadResult <;> simp [h]
    · rcases hd : env.downloadResult <;> rcases hp : env.parsedPages <;>
        simp [h]
  · intro envs1 env envs2 h
    simp [runPipeline, List.filterMap_append, List.filterMap_cons, h]

/-- A paper environment on which every stage succeeds. -/
def envOk6 : PaperEnv :=
  { downloadResult := some ("p.pdf".data)
    smmsEnvToken := some ("tok".data)
    parsedPages := some ex4Pages
    upload := ex4Upload
    outputDir := "./data".data
    imageDir := "images_7_2024-01-01".data
    paperId := ['7']
    date := "2024-01-01".data
    summarizeOk := true
    summaryText := "see img end".data
    rewriteOk := true }

/-- The same paper with an exhausted download. -/
def envBad6 : PaperEnv := { envOk6 with downloadResult := none }

/-- Witness for claim C6: the failed paper contributes nothing and the
batch result is that of the remaining papers. -/
theorem claim6_per_paper_isolation_witness :
    processPaper envBad6 = none ∧
    runPipeline [envOk6, envBad6] = runPipeline [envOk6] := by
  have h := claim6_per_paper_isolation.1 envBad6 (Or.inl rfl)
  refine ⟨h, ?_⟩
  have h2 := claim6_per_paper_isolation.2 [envOk6] envBad6 [] h
  simpa using h2

/-- Claim C7 (amended): when summarization succeeds and rewriting runs,
the only write of the summary happens after rewriting and stores the
rewritten text; when the rewriting step fails, no summary file is
written at all, so the summary does not survive a rewriting failure. -/
theorem claim7_save_after_rewrite (env : PaperEnv) (pdf : Str)
    (pages : List OcrPage)
    (hd : env.downloadResult = some pdf)
    (hp : env.parsedPages = some pages)
    (hc : (rehost (envCfg env) pages).content ≠ [])
    (hs : env.summarizeOk = true) :
    (env.rewriteOk = true →
      processPaperT env =
        (some (summaryFilename env),
          ((rehost (envCfg env) pages).evs.map PEvent.rehostEv) ++
            [PEvent.summarized, PEvent.rewrittenEv,
             PEvent.saved (rewrite (rehost (envCfg env) pages).urlMap
               env.summaryText)])) ∧
    (env.rewriteOk = false →
      (processPaperT env).1 = none ∧
      ∀ c, PEvent.saved c ∉ (processPaperT env).2) := by
  constructor
  · intro hr
    unfold processPaperT
    rw [hd, hp]
    simp [hc, hs, hr]
  · intro hr
    unfold processPaperT
    rw [hd, hp]
    constructor
    · simp [hc, hs, hr]
    · intro c
      simp [hc, hs, hr]

/-- A paper whose summarization succeeds but whose rewriting step
raises. -/
def env7c : PaperEnv :=
  { downloadResult := some ("p.pdf".data)
    smmsEnvToken := none
    parsedPages := some [⟨['x'], []⟩]
    upload := fun _ => none
    outputDir := "./data".data
    imageDir := "images_7_2024-01-01".data
    paperId := ['7']
    date := "2024-01-01".data
    summarizeOk := true
    summaryText := ['s']
    rewriteOk := false }

/-- Claim C7 counterexample: with a successful summarization and a
failing rewriting step, the trace holds no save event at all — the
summary is not written to durable storage before rewriting and does not
survive the rewriting failure. -/
theorem claim7_counterexample :
    processPaperT env7c = (none, [PEvent.summarized]) ∧
    (∀ c, PEvent.saved c ∉ (processPaperT env7c).2) ∧
    env7c.summarizeOk = true ∧ env7c.rewriteOk = false := by
  have h : processPaperT env7c = (none, [PEvent.summarized]) := by decide
  refine ⟨h, ?_, rfl, rfl⟩
  intro c hc
  rw [h] at hc
  simp at hc

/-- The failing-rewrite paper with the rewriting step succeeding. -/
def env7w : PaperEnv := { env7c with rewriteOk := true }

/-- Witness for the amended claim C7 on a concrete successful run: the
save event carries the rewritten summary and follows the rewrite
event. -/
theorem claim7_save_after_rewrite_witness :
    processPaperT env7w =
      (some ("summary_7_2024-01-01.md".data),
        [PEvent.summarized, PEvent.rewrittenEv, PEvent.saved ['s']]) := by
  have h := (claim7_save_after_rewrite env7w ("p.pdf".data) [⟨['x'], []⟩]
    rfl rfl (by decide) rfl).1 rfl
  rw [h]
  decide

/-- The rehosting loop run without an uploader performs no upload
attempts and leaves `image_url_map` empty. -/
def noUpInv (st : RState) : Prop :=
  st.urlMap = [] ∧ ∀ f r, RehostEv.upAttempt f r ∉ st.evs

theorem processImg_noUp (up : Str → Option Str) (od idir : Str)
    (pc : Str) (st : RState) (img : OcrImage) (h : noUpInv st) :
    noUpInv (processImg ⟨false, up, od, idir⟩ (pc, st) img).2 := by
  unfold processImg
  by_cases hmem : img.id ∈ st.refs
  · simpa [hmem] using h
  · simp only [hmem, if_false]
    set ok := (match img.payload with
      | .inlineData d => d
      | .fileRef p => p) with hok
    by_cases hk : ok
    · have hu : uploadStep ⟨false, up, od, idir⟩
          (imgFname ⟨false, up, od, idir⟩ img.id)
          { st with evs := st.evs ++ [RehostEv.occurrence img.id true] } =
          { st with evs := st.evs ++ [RehostEv.occurrence img.id true] } := by
        unfold uploadStep
        rfl
      rw [if_pos hk, hu]
      refine ⟨h.1, ?_⟩
      intro f r hin
      have hin2 : RehostEv.upAttempt f r ∈
          st.evs ++ [RehostEv.occurrence img.id true] := hin
      rcases List.mem_append.mp hin2 with h1 | h1
      · exact h.2 f r h1
      · simp at h1
    · rw [if_neg hk]
      refine ⟨h.1, ?_⟩
      intro f r hin
      have hin2 : RehostEv.upAttempt f r ∈
          st.evs ++ [RehostEv.occurrence img.id false] := hin
      rcases List.mem_append.mp hin2 with h1 | h1
      · exact h.2 f r h1
      · simp at h1

theorem processImgs_noUp (up : Str → Option Str) (od idir : Str)
    (images : List OcrImage) :
    ∀ (pc : Str) (st : RState), noUpInv st →
      noUpInv ((images.foldl (processImg ⟨false, up, od, idir⟩)
        (pc, st)).2) := by
  induction images with
  | nil => intro pc st h; exact h
  | cons img rest ih =>
    intro pc st h
    simp only [List.foldl_cons]
    exact ih (processImg ⟨false, up, od, idir⟩ (pc, st) img).1
      (processImg ⟨false, up, od, idir⟩ (pc, st) img).2
      (processImg_noUp up od idir pc st img h)

theorem rehost_noUploader (up : Str → Option Str) (od idir : Str)
    (pages : List OcrPage) :
    noUpInv (rehost ⟨false, up, od, idir⟩ pages) := by
  unfold rehost
  generalize hinit : (⟨[], [], [], []⟩ : RState) = st0
  have h0 : noUpInv st0 := by
    rw [← hinit]
    exact ⟨rfl, by simp⟩
  clear hinit
  induction pages generalizing st0 with
  | nil => exact h0
  | cons pg rest ih =>
    simp only [List.foldl_cons]
    refine ih (processPage ⟨false, up, od, idir⟩ st0 pg) ?_
    unfold processPage
    by_cases hm : pg.markdown = []
    · simpa [hm] using h0
    · simp only [hm, if_false]
      have := processImgs_noUp up od idir pg.images pg.markdown st0 h0
      exact ⟨this.1, this.2⟩

/-- Claim C9 (amended): a missing image-host credential makes the
uploader constructor raise, but process_paper catches it per paper and
continues: the run performs no upload attempt, builds no alias entries,
and still produces its summary file — the error is absorbed during
per-paper processing rather than being fatal at process start. -/
theorem claim9_credential_absorbed :
    (smmsInit none none = Except.error tokenErrMsg) ∧
    (∀ (up : Str → Option Str) (od idir : Str) (pages : List OcrPage),
      (rehost ⟨false, up, od, idir⟩ pages).urlMap = [] ∧
      ∀ f r, RehostEv.upAttempt f r ∉
        (rehost ⟨false, up, od, idir⟩ pages).evs) ∧
    (∀ (env : PaperEnv) (pdf : Str) (pages : List OcrPage),
      env.smmsEnvToken = none → env.downloadResult = some pdf →
      env.parsedPages = some pages →
      (rehost (envCfg env) pages).content ≠ [] →
      env.summarizeOk = true → env.rewriteOk = true →
      (processPaperT env).1 = some (summaryFilename env) ∧
      ∀ f r, PEvent.rehostEv (RehostEv.upAttempt f r) ∉
        (processPaperT env).2) := by
  refine ⟨rfl, ?_, ?_⟩
  · intro up od idir pages
    exact ⟨(rehost_noUploader up od idir pages).1,
      (rehost_noUploader up od idir pages).2⟩
  · intro env pdf pages htok hd hp hc hs hr
    have hcfg : envCfg env = ⟨false, env.upload, env.outputDir,
        env.imageDir⟩ := by
      unfold envCfg uploaderAvail
      rw [htok]
      rfl
    constructor
    · unfold processPaperT
      rw [hd, hp]
      simp [hc, hs, hr]
    · intro f r hin0
      have hin : RehostEv.upAttempt f r ∈ (rehost (envCfg env) pages).evs := by
        unfold processPaperT at hin0
        rw [hd, hp] at hin0
        simpa [hc, hs, hr] using hin0
      rw [hcfg] at hin
      exact (rehost_noUploader env.upload env.outputDir
        env.imageDir pages).2 f r hin

/-- A fully successful paper run lacking only the SM.MS credential. -/
def env9c : PaperEnv :=
  { downloadResult := some ("p.pdf".data)
    smmsEnvToken := none
    parsedPages := some [⟨"x ".data, [⟨"img-1".data, ImgPayload.inlineData true⟩]⟩]
    upload := fun _ => some ("https://host/a.png".data)
    outputDir := "./data".data
    imageDir := "images_7_2024-01-01".data
    paperId := ['7']
    date := "2024-01-01".data
    summarizeOk := true
    summaryText := ['s']
    rewriteOk := true }

/-- Claim C9 counterexample: with the image-host credential missing the
uploader constructor raises, yet process_paper still completes and
produces the paper's summary file with no upload attempted — the
failure is absorbed during per-paper processing, not fatal at process
start. -/
theorem claim9_counterexample :
    smmsInit none env9c.smmsEnvToken = Except.error tokenErrMsg ∧
    (processPaperT env9c).1 = some (summaryFilename env9c) ∧
    ∀ f r, PEvent.rehostEv (RehostEv.upAttempt f r) ∉
      (processPaperT env9c).2 := by
  have h : (processPaperT env9c).2 =
      [PEvent.rehostEv (RehostEv.occurrence ("img-1".data) true),
       PEvent.summarized, PEvent.rewrittenEv, PEvent.saved ['s']] := by
    decide
  refine ⟨rfl, by decide, ?_⟩
  intro f r hc
  rw [h] at hc
  simp at hc

/-- Witness for the amended claim C9 at the concrete credential-less
environment. -/
theorem claim9_credential_absorbed_witness :
    (processPaperT env9c).1 = some (summaryFilename env9c) :=
  (claim9_credential_absorbed.2.2 env9c ("p.pdf".data)
    [⟨"x ".data, [⟨"img-1".data, ImgPayload.inlineData true⟩]⟩]
    rfl rfl rfl (by decide) rfl rfl).1

end PangPang
